import Mathlib

/-!
Shallow embedding of the map-building pipeline in `build_map.py`:
region selection, timestep normalization, per-region energy and capacity
aggregation, edge resolution between lines (class A) and links (class B),
and construction of the rendered document (edges and region markers).

Numeric values are modelled as rationals; a pandas `NaN` (or an absent
attribute, which `r.get(..., np.nan)` turns into `NaN`) is modelled as
`none` of `Option ℚ`.
-/

namespace BuildMap

/-- Row of the bus table `n.buses`: identifier and (x, y) coordinates. -/
structure Bus where
  id : String
  x : ℚ
  y : ℚ
deriving DecidableEq

/-- Row of the load table `n.loads`: name and owning bus. -/
structure Load where
  name : String
  bus : String
deriving DecidableEq

/-- Row of `n.generators` or `n.storage_units`: name, owning bus, nominal
power `p_nom` (`none` models NaN), and the value of the resolved
technology-label column (`carrier`/`type`/`technology`). -/
structure Asset where
  name : String
  bus : String
  pNom : Option ℚ
  label : String
deriving DecidableEq

/-- Row of the line table `n.lines` (class A): endpoints, apparent power
`s_nom` and a fallback `capacity` attribute, each `none` when NaN or when
the column is absent. -/
structure Line where
  name : String
  bus0 : String
  bus1 : String
  sNom : Option ℚ
  capacity : Option ℚ
deriving DecidableEq

/-- Row of the link table `n.links` (class B): endpoints and nominal power
`p_nom` (`none` models NaN or an absent column). -/
structure Link where
  name : String
  bus0 : String
  bus1 : String
  pNom : Option ℚ
deriving DecidableEq

/-- The snapshot index `n.snapshots`: whether it is a `pd.DatetimeIndex`,
and its timestamps as seconds (only meaningful when it is one). -/
structure SnapIndex where
  isDatetime : Bool
  ts : List ℚ
deriving DecidableEq

/-- The loaded network. `snapshots = none` models the whole
timestep-derivation block raising (no snapshot index at all);
`loadsT = none` models a network without `loads_t.p_set`, and `some cols`
gives the `p_set` columns as (load name, series) pairs. `genTypeCol` /
`storTypeCol` record whether `_type_col` found one of the candidate
technology columns on the respective table. -/
structure Network where
  buses : List Bus
  snapshots : Option SnapIndex
  loads : List Load
  loadsT : Option (List (String × List ℚ))
  generators : List Asset
  storageUnits : List Asset
  genTypeCol : Bool
  storTypeCol : Bool
  lines : List Line
  links : List Link

/-! ### Unit/Time Normalizer (lines 75-82) -/

/-- Elementwise consecutive differences, `snaps.to_series().diff().dropna()`. -/
def diffsQ (ts : List ℚ) : List ℚ :=
  List.zipWith (fun a b => b - a) ts ts.tail

/-- Median of a list of rationals, as pandas computes it: sort, take the
middle element for odd length, the mean of the two middle elements for
even length. -/
def medianQ (xs : List ℚ) : ℚ :=
  let s := List.insertionSort (fun a b => a ≤ b) xs
  let m := xs.length
  if m % 2 = 1 then s.getD (m / 2) 0
  else (s.getD (m / 2 - 1) 0 + s.getD (m / 2) 0) / 2

/-- Timestep in hours (lines 75-82): 1.0 unless the snapshot index exists,
is a datetime index and has more than one timestamp, in which case the
median of the consecutive differences (seconds) divided by 3600. -/
def dtHours (snaps : Option SnapIndex) : ℚ :=
  match snaps with
  | none => 1
  | some s =>
      if 1 < s.ts.length ∧ s.isDatetime = true then
        medianQ (diffsQ s.ts) / 3600
      else 1

/-! ### Region Selector (lines 85-86) -/

/-- Buses with 2-character names, in bus-table order (line 85). -/
def selectedBuses (n : Network) : List String :=
  (n.buses.map Bus.id).filter (fun b => b.length == 2)

/-- Coordinate lookup `n.buses.at[b, "x"/"y"]` (first bus with that id). -/
def busXY (n : Network) (b : String) : ℚ × ℚ :=
  match n.buses.find? (fun bus => bus.id == b) with
  | some bus => (bus.x, bus.y)
  | none => (0, 0)

/-! ### Aggregator: energy (lines 89-98) -/

/-- Owning bus of a load name, via the `n.loads["bus"]` mapping. -/
def loadBus (n : Network) (name : String) : Option String :=
  (n.loads.find? (fun l => l.name == name)).map Load.bus

/-- Per-load energy `n.loads_t.p_set.sum(axis=0) * dt_hours` (line 90). -/
def energyMwhPerLoad (dt : ℚ) (cols : List (String × List ℚ)) :
    List (String × ℚ) :=
  cols.map (fun c => (c.1, c.2.sum * dt))

/-- Group the per-load values by owning bus and sum (line 92); a column
whose name has no row in the load table gets a NaN group key and is
dropped, as in pandas. -/
def groupByBusSum (n : Network) (vals : List (String × ℚ)) (b : String) : ℚ :=
  ((vals.filter (fun v => loadBus n v.1 == some b)).map Prod.snd).sum

/-- Energy in MWh per bus (lines 89-94): zero when `loads_t.p_set` is
absent. -/
def energyMwhPerBus (n : Network) (b : String) : ℚ :=
  match n.loadsT with
  | none => 0
  | some cols => groupByBusSum n (energyMwhPerLoad (dtHours n.snapshots) cols) b

/-- Energy in TWh per bus (lines 96-98): MWh divided by 1e6, missing buses
filled with 0 (already 0 in this per-bus form). -/
def energyTwhPerBus (n : Network) (b : String) : ℚ :=
  energyMwhPerBus n b / 1000000

/-! ### Aggregator: capacity (lines 101-113) -/

/-- Sum of `p_nom.fillna(0)` over the assets owned by bus `b`
(the `groupby("bus").sum()` of lines 105 and 110). -/
def capSumMw (assets : List Asset) (b : String) : ℚ :=
  ((assets.filter (fun a => a.bus == b)).map (fun a => a.pNom.getD 0)).sum

/-- Installed capacity in MW per bus (lines 101-111): a zero series over
the buses, plus the generator sums when generators exist, plus the
storage-unit sums when storage units exist. -/
def genCapMw (n : Network) (b : String) : ℚ :=
  (if n.generators.isEmpty then 0 else capSumMw n.generators b)
  + (if n.storageUnits.isEmpty then 0 else capSumMw n.storageUnits b)

/-- Installed capacity in GW per bus (line 113). -/
def genCapGw (n : Network) (b : String) : ℚ :=
  genCapMw n b / 1000

/-! ### Aggregator: capacity by technology (lines 116-171) -/

/-- Sorted deduplicated technology labels of the assets owned by bus `b`
(the group keys of `groupby(["bus", type_col])`, which pandas sorts). -/
def labelsAt (assets : List Asset) (b : String) : List String :=
  List.insertionSort (fun a c => a ≤ c)
    ((assets.filter (fun a => a.bus == b)).map Asset.label).dedup

/-- Sum of `p_nom` (NaN filled with 0) over assets owned by `b` carrying
label `t` (the `groupby(["bus", type_col])["p_nom"].sum()` entries). -/
def capSumMwLabel (assets : List Asset) (b t : String) : ℚ :=
  ((assets.filter (fun a => a.bus == b && a.label == t)).map
    (fun a => a.pNom.getD 0)).sum

/-- The per-bus slice of the (bus, type) capacity table in MW
(lines 126-160): grouped by the resolved technology column when one
exists, otherwise every asset of the class bucketed under the single
fallback label. -/
def typesMwAt (assets : List Asset) (hasTypeCol : Bool) (fallback : String)
    (b : String) : List (String × ℚ) :=
  if !assets.isEmpty && hasTypeCol then
    (labelsAt assets b).map (fun t => (t, capSumMwLabel assets b t))
  else
    if (assets.filter (fun a => a.bus == b)).isEmpty then []
    else [(fallback, capSumMw assets b)]

/-- The dict built by `_types_for_bus` (lines 163-171): label to GW. -/
def typesGwAt (assets : List Asset) (hasTypeCol : Bool) (fallback : String)
    (b : String) : List (String × ℚ) :=
  (typesMwAt assets hasTypeCol fallback b).map (fun p => (p.1, p.2 / 1000))

/-! ### Edge Resolver (lines 191-222) -/

/-- Canonical unordered endpoint pair, `tuple(sorted([bus0, bus1]))`. -/
def pairOf (a b : String) : String × String :=
  if a ≤ b then (a, b) else (b, a)

/-- Lines whose both endpoints are selected buses (lines 192-195). -/
def selLines (n : Network) : List Line :=
  n.lines.filter (fun l =>
    (selectedBuses n).contains l.bus0 && (selectedBuses n).contains l.bus1)

/-- Links whose both endpoints are selected buses (lines 197-200). -/
def selLinks (n : Network) : List Link :=
  n.links.filter (fun k =>
    (selectedBuses n).contains k.bus0 && (selectedBuses n).contains k.bus1)

/-- Unordered endpoint pairs covered by the selected links (lines 203-205). -/
def linkPairs (n : Network) : List (String × String) :=
  (selLinks n).map (fun k => pairOf k.bus0 k.bus1)

/-- Lines that survive suppression (lines 206-211): when the selection is
nonempty, drop every line whose unordered pair is covered by a link. -/
def renderedLines (n : Network) : List Line :=
  if (selLines n).isEmpty then selLines n
  else (selLines n).filter (fun l =>
    !(linkPairs n).contains (pairOf l.bus0 l.bus1))

/-- Displayable capacity of a line (lines 214-219): `s_nom` when not NaN,
else the `capacity` attribute, else NaN (`none`). -/
def capMwFromLine (l : Line) : Option ℚ :=
  match l.sNom with
  | some v => some v
  | none => l.capacity

/-- Displayable capacity of a link (lines 221-222): `p_nom` or NaN. -/
def capMwFromLink (k : Link) : Option ℚ :=
  match k.pNom with
  | some v => some v
  | none => none

/-! ### Map Renderer (lines 231-336) -/

/-- Class of a rendered transmission edge: A (line, grey) or B (link,
orange). -/
inductive EdgeClass where
  | A
  | B
deriving DecidableEq

/-- A rendered transmission edge: class, element name, endpoints as drawn,
and the resolved capacity for the tooltip (`none` is the not-available
sentinel). -/
structure Edge where
  cls : EdgeClass
  name : String
  bus0 : String
  bus1 : String
  capacity : Option ℚ
deriving DecidableEq

/-- Canonical unordered pair of a rendered edge. -/
def Edge.pairKey (e : Edge) : String × String :=
  pairOf e.bus0 e.bus1

/-- Rendered edge of a surviving line (lines 238-258). -/
def mkLineEdge (l : Line) : Edge :=
  ⟨EdgeClass.A, l.name, l.bus0, l.bus1, capMwFromLine l⟩

/-- Rendered edge of a selected link (lines 261-281). -/
def mkLinkEdge (k : Link) : Edge :=
  ⟨EdgeClass.B, k.name, k.bus0, k.bus1, capMwFromLink k⟩

/-- The rendered edge set, in drawing order: surviving lines, then links. -/
def renderedEdges (n : Network) : List Edge :=
  (renderedLines n).map mkLineEdge ++ (selLinks n).map mkLinkEdge

/-- Tooltip text of the capacity field (lines 249 and 272): the value, or
the literal not-available sentinel when NaN. -/
def capText (c : Option ℚ) : String :=
  match c with
  | none => "n/a MW"
  | some v => toString v ++ " MW"

/-- Python `round(x, 6)` on the model rationals: round half to even at the
sixth decimal place. -/
def round6 (q : ℚ) : ℚ :=
  let z := q * 1000000
  let f := ⌊z⌋
  let r := z - f
  (if r < 1 / 2 then f
   else if 1 / 2 < r then f + 1
   else if f % 2 = 0 then f else f + 1) / 1000000

/-- Python `sorted` on (label, value) pairs: lexicographic order. -/
def pairLe (a b : String × ℚ) : Prop :=
  a.1 < b.1 ∨ (a.1 = b.1 ∧ a.2 ≤ b.2)

instance : DecidableRel pairLe := fun a b => by
  unfold pairLe; infer_instance

/-- A rendered region marker (lines 174-189 and 284-326): identifier,
coordinates, rounded demand and installed capacity, and the popup
technology breakdowns sorted as by `sorted(...items())`. -/
structure Marker where
  id : String
  x : ℚ
  y : ℚ
  demandTwh : ℚ
  installedGw : ℚ
  genTypesGw : List (String × ℚ)
  storTypesGw : List (String × ℚ)
deriving DecidableEq

/-- Marker of one selected bus. -/
def markerFor (n : Network) (b : String) : Marker :=
  { id := b
    x := (busXY n b).1
    y := (busXY n b).2
    demandTwh := round6 (energyTwhPerBus n b)
    installedGw := round6 (genCapGw n b)
    genTypesGw :=
      List.insertionSort pairLe
        (typesGwAt n.generators n.genTypeCol "generator" b)
    storTypesGw :=
      List.insertionSort pairLe
        (typesGwAt n.storageUnits n.storTypeCol "storage" b) }

/-- All markers, in the iteration order of `bus_props` (insertion order =
`selected_buses` order, lines 174-175 and 284). -/
def renderedMarkers (n : Network) : List Marker :=
  (selectedBuses n).map (markerFor n)

/-- The rendered document content: edges then markers, a pure function of
the network. -/
structure RenderedDoc where
  edges : List Edge
  markers : List Marker

/-- Full pipeline from loaded network to rendered document content. -/
def buildDoc (n : Network) : RenderedDoc :=
  ⟨renderedEdges n, renderedMarkers n⟩

/-! ### Configuration and output path (lines 41-57 and 331-335) -/

/-- The per-report configuration record (`onepager.yaml`): the optional
`project` key and the `network_file` key. -/
structure Config where
  project : Option String
  networkFile : Option String
deriving DecidableEq

/-- Name used for the report (line 45): the `project` key of the YAML when
present, otherwise the CLI positional argument. -/
def projectName (cfg : Config) (arg : String) : String :=
  cfg.project.getD arg

/-- Components of the output path relative to the base directory
(lines 331-334): `output/<project_name>/network_map.html`. -/
def outputPath (cfg : Config) (arg : String) : List String :=
  ["output", projectName cfg arg, "network_map.html"]

/-! ### Concrete networks used to instantiate the theorems -/

/-- One region with one load carrying three hourly samples 10, 20, 30. -/
def netEnergy : Network :=
  ⟨[⟨"UA", 30, 50⟩], some ⟨true, [0, 3600, 7200]⟩, [⟨"load1", "UA"⟩],
   some [("load1", [10, 20, 30])], [], [], false, false, [], []⟩

/-- Same region with no time series at all. -/
def netNoSeries : Network :=
  ⟨[⟨"UA", 30, 50⟩], none, [⟨"load1", "UA"⟩], none, [], [], false, false,
   [], []⟩

/-- One region with generators 100 (wind), 200 (gas), NaN (oil) and one
storage unit 50 (battery). -/
def netCapacity : Network :=
  ⟨[⟨"UA", 30, 50⟩], none, [], none,
   [⟨"g1", "UA", some 100, "wind"⟩, ⟨"g2", "UA", some 200, "gas"⟩,
    ⟨"g3", "UA", none, "oil"⟩],
   [⟨"s1", "UA", some 50, "battery"⟩], true, true, [], []⟩

/-- Two regions joined by one line (s_nom 500) and one link (p_nom 300)
over the same unordered pair. -/
def netBothClasses : Network :=
  ⟨[⟨"UA", 30, 50⟩, ⟨"MD", 28, 47⟩], none, [], none, [], [], false, false,
   [⟨"L1", "UA", "MD", some 500, none⟩],
   [⟨"K1", "MD", "UA", some 300⟩]⟩

/-- Two regions joined by two links over the same unordered pair. -/
def netTwoLinks : Network :=
  ⟨[⟨"UA", 30, 50⟩, ⟨"MD", 28, 47⟩], none, [], none, [], [], false, false,
   [],
   [⟨"K1", "UA", "MD", some 300⟩, ⟨"K2", "MD", "UA", some 400⟩]⟩

/-- Two regions joined by a line, plus a link touching a 3-character
(unselected) bus. -/
def netUnselLink : Network :=
  ⟨[⟨"UA", 30, 50⟩, ⟨"MD", 28, 47⟩, ⟨"UAX", 29, 48⟩], none, [], none, [],
   [], false, false,
   [⟨"L1", "UA", "MD", some 500, none⟩],
   [⟨"K1", "UA", "UAX", some 100⟩]⟩

/-- Bus table whose 2-character identifiers appear in non-sorted order. -/
def netUnsorted : Network :=
  ⟨[⟨"UA", 30, 50⟩, ⟨"MD", 28, 47⟩, ⟨"UAX", 29, 48⟩], none, [], none,
   [⟨"g1", "UA", some 100, "wind"⟩, ⟨"g2", "UA", some 200, "gas"⟩],
   [], true, false, [], []⟩

/-- Line with `s_nom` missing and `capacity` 700; link with `p_nom`
missing. -/
def netMissingCaps : Network :=
  ⟨[⟨"UA", 30, 50⟩, ⟨"MD", 28, 47⟩, ⟨"RO", 26, 46⟩], none, [], none, [],
   [], false, false,
   [⟨"L1", "UA", "MD", none, some 700⟩],
   [⟨"K1", "MD", "RO", none⟩]⟩

/-! ### Theorems -/

/-- C4: timestep derivation is a total case split: a missing snapshot
index yields exactly 1.0 hour; an index with fewer than 2 timestamps or
one that is not a datetime index yields exactly 1.0 hour; otherwise the
timestep is the median of the consecutive differences converted to hours.
Totality of `dtHours` is the embedding of the never-raising guarantee. -/
theorem timestep_derivation (snaps : Option SnapIndex) :
    (snaps = none → dtHours snaps = 1)
    ∧ (∀ s, snaps = some s → s.ts.length < 2 ∨ s.isDatetime = false →
        dtHours snaps = 1)
    ∧ (∀ s, snaps = some s → 2 ≤ s.ts.length → s.isDatetime = true →
        dtHours snaps = medianQ (diffsQ s.ts) / 3600)
    ∧ (dtHours snaps = 1 ∨
        ∃ s, snaps = some s ∧ dtHours snaps = medianQ (diffsQ s.ts) / 3600) := by
  refine ⟨fun h => by rw [h, dtHours], fun s hs hcase => ?_, fun s hs h2 hdt => ?_, ?_⟩
  · rw [hs, dtHours]
    rcases hcase with h | h
    · rw [if_neg]
      rintro ⟨hlen, -⟩
      omega
    · rw [if_neg]
      rintro ⟨-, hdt⟩
      rw [h] at hdt
      exact Bool.false_ne_true hdt
  · rw [hs, dtHours, if_pos ⟨by omega, hdt⟩]
  · match snaps with
    | none => exact Or.inl rfl
    | some s =>
        rw [dtHours]
        by_cases h : 1 < s.ts.length ∧ s.isDatetime = true
        · exact Or.inr ⟨s, rfl, by rw [if_pos h]⟩
        · exact Or.inl (by rw [if_neg h])

/-- C4 witness: a missing index and a non-datetime index give 1.0; the
datetime index [0, 1800, 3600, 9000] (seconds) gives the median difference
1800 s, i.e. 0.5 hours. -/
theorem timestep_derivation_witness :
    dtHours none = 1
    ∧ dtHours (some ⟨false, [0, 3600, 7200]⟩) = 1
    ∧ dtHours (some ⟨true, [0, 1800, 3600, 9000]⟩) = 1 / 2 := by
  refine ⟨(timestep_derivation none).1 rfl,
    (timestep_derivation (some ⟨false, [0, 3600, 7200]⟩)).2.1 _ rfl (Or.inr rfl),
    ?_⟩
  rw [(timestep_derivation (some ⟨true, [0, 1800, 3600, 9000]⟩)).2.2.1 _ rfl
    (by norm_num) rfl]
  norm_num [medianQ, diffsQ, List.insertionSort, List.orderedInsert]

/-- C5: the displayed capacity of a class-A element is `s_nom` when
present and non-missing, else the `capacity` attribute, else the
not-available sentinel `none`; for a class-B element it is `p_nom` or the
sentinel; every rendered edge carries exactly the resolver output, and the
rendered tooltip keeps the sentinel distinct from a rendered zero. -/
theorem capacity_display_resolution (n : Network) :
    (∀ l : Line, (∀ v, l.sNom = some v → capMwFromLine l = some v)
      ∧ (l.sNom = none → capMwFromLine l = l.capacity)
      ∧ (l.sNom = none → l.capacity = none → capMwFromLine l = none))
    ∧ (∀ k : Link, capMwFromLink k = k.pNom)
    ∧ (∀ l ∈ renderedLines n, (mkLineEdge l).capacity = capMwFromLine l)
    ∧ (∀ k ∈ selLinks n, (mkLinkEdge k).capacity = capMwFromLink k)
    ∧ (∀ c : Option ℚ, c = none → capText c = "n/a MW")
    ∧ capText none ≠ capText (some 0) := by
  refine ⟨fun l => ⟨fun v hv => by rw [capMwFromLine, hv],
      fun h => by rw [capMwFromLine, h],
      fun h h2 => by rw [capMwFromLine, h, h2]⟩,
    fun k => ?_, fun l _ => rfl, fun k _ => rfl,
    fun c hc => by rw [hc, capText], ?_⟩
  · rw [capMwFromLink]
    match k with
    | ⟨_, _, _, none⟩ => rfl
    | ⟨_, _, _, some v⟩ => rfl
  · show capText none ≠ capText (some 0)
    decide

/-- C5 witness: in `netMissingCaps` the line has no `s_nom`, so its
rendered capacity falls back to `capacity = 700`; the link has no `p_nom`,
so its rendered capacity is the sentinel, which renders as the literal
not-available text. -/
theorem capacity_display_resolution_witness :
    capMwFromLine ⟨"L1", "UA", "MD", none, some 700⟩ = some 700
    ∧ capMwFromLink ⟨"K1", "MD", "RO", none⟩ = none
    ∧ capText (capMwFromLink ⟨"K1", "MD", "RO", none⟩) = "n/a MW"
    ∧ capText none ≠ capText (some 0) := by
  have h := capacity_display_resolution netMissingCaps
  refine ⟨(h.1 ⟨"L1", "UA", "MD", none, some 700⟩).2.1 rfl,
    h.2.1 ⟨"K1", "MD", "RO", none⟩, ?_, h.2.2.2.2.2⟩
  rw [h.2.1 ⟨"K1", "MD", "RO", none⟩]
  exact h.2.2.2.2.1 none rfl

/-- C9 counterexample: when the configuration record carries a `project`
value different from the CLI argument, the output directory is named by
the configuration value, not by the report identifier: with
`project: "foo"` and CLI argument "bar" the document goes to
`output/foo/network_map.html`. -/
theorem output_dir_counterexample :
    outputPath ⟨some "foo", some "net.nc"⟩ "bar"
      ≠ ["output", "bar", "network_map.html"] := by
  simp [outputPath, projectName]

/-- C9 amended: the output document path is
`output/<name>/network_map.html` where `<name>` is the `project` value of
the configuration when present, and the CLI report identifier otherwise. -/
theorem output_path_resolution (cfg : Config) (arg : String) :
    (cfg.project = none →
      outputPath cfg arg = ["output", arg, "network_map.html"])
    ∧ (∀ p, cfg.project = some p →
      outputPath cfg arg = ["output", p, "network_map.html"]) := by
  constructor
  · intro h
    rw [outputPath, projectName, h]
    rfl
  · intro p h
    rw [outputPath, projectName, h]
    rfl

/-- C9 witness: a configuration without a `project` key sends report
"rep1" to `output/rep1/network_map.html`; one with `project: "alt"` sends
it to `output/alt/network_map.html`. -/
theorem output_path_resolution_witness :
    outputPath ⟨none, some "net.nc"⟩ "rep1"
      = ["output", "rep1", "network_map.html"]
    ∧ outputPath ⟨some "alt", some "net.nc"⟩ "rep1"
      = ["output", "alt", "network_map.html"] :=
  ⟨(output_path_resolution ⟨none, some "net.nc"⟩ "rep1").1 rfl,
   (output_path_resolution ⟨some "alt", some "net.nc"⟩ "rep1").2 "alt" rfl⟩

/-- C8 counterexample: with the bus table ["UA", "MD", "UAX"] the region
selector outputs ["UA", "MD"], which is not sorted by identifier — the
selector preserves bus-table order and never sorts. -/
theorem selector_sorted_counterexample :
    ¬ List.Sorted (fun a b => a ≤ b) (selectedBuses netUnsorted) := by
  simp +decide [selectedBuses, netUnsorted, List.Sorted,
    String.le_iff_toList_le]

/-- C8 amended: the region selector outputs exactly the identifiers of
length 2, in bus-table order (a sublist of the input identifier
sequence), not sorted. -/
theorem selector_filter_order (n : Network) :
    (selectedBuses n).Sublist (n.buses.map Bus.id)
    ∧ (∀ b, b ∈ selectedBuses n ↔ b ∈ n.buses.map Bus.id ∧ b.length = 2) := by
  constructor
  · exact List.filter_sublist _
  · intro b
    rw [selectedBuses, List.mem_filter]
    simp

/-- C8 witness: in `netUnsorted`, "UA" is selected (2 characters, in the
table) and the selected list is a sublist of the full identifier list. -/
theorem selector_filter_order_witness :
    "UA" ∈ selectedBuses netUnsorted
    ∧ (selectedBuses netUnsorted).Sublist (netUnsorted.buses.map Bus.id) :=
  ⟨((selector_filter_order netUnsorted).2 "UA").mpr (by decide),
   (selector_filter_order netUnsorted).1⟩

/-- Grouping the per-load energies by owning bus equals filtering the
series columns to the loads owned by the bus and summing their energies. -/
theorem groupByBusSum_energy (n : Network) (b : String) (dt : ℚ)
    (cols : List (String × List ℚ)) :
    groupByBusSum n (energyMwhPerLoad dt cols) b
      = ((cols.filter (fun c => loadBus n c.1 == some b)).map
          (fun c => c.2.sum * dt)).sum := by
  rw [groupByBusSum, energyMwhPerLoad, List.filter_map, List.map_map]
  rfl

/-- C2: for every region, the total energy is the sum, over the series
columns whose load is owned by the region, of (series sum × timestep),
divided by 1e6; it is 0 when no time series exists and 0 when the region
owns none of the series columns. -/
theorem total_energy_formula (n : Network) (b : String) :
    (∀ cols, n.loadsT = some cols →
      energyTwhPerBus n b
        = ((cols.filter (fun c => loadBus n c.1 == some b)).map
            (fun c => c.2.sum * dtHours n.snapshots)).sum / 1000000)
    ∧ (n.loadsT = none → energyTwhPerBus n b = 0)
    ∧ (∀ cols, n.loadsT = some cols →
        (∀ c ∈ cols, ¬ loadBus n c.1 = some b) → energyTwhPerBus n b = 0) := by
  refine ⟨fun cols hc => ?_, fun h => ?_, fun cols hc hnone => ?_⟩
  · simp only [energyTwhPerBus, energyMwhPerBus, hc, groupByBusSum_energy]
  · simp only [energyTwhPerBus, energyMwhPerBus, h]
    norm_num
  · simp only [energyTwhPerBus, energyMwhPerBus, hc, groupByBusSum_energy]
    rw [List.filter_eq_nil_iff.mpr]
    · norm_num
    · intro c hmem
      simp only [beq_iff_eq]
      exact fun hcb => hnone c hmem hcb

/-- C2 witness: one load with three hourly samples 10, 20, 30 yields
total_energy = (10+20+30) × 1.0 / 1e6 = 0.00006 TWh; a network without a
time series yields 0. -/
theorem total_energy_formula_witness :
    energyTwhPerBus netEnergy "UA" = 3 / 50000
    ∧ energyTwhPerBus netNoSeries "UA" = 0 := by
  constructor
  · rw [(total_energy_formula netEnergy "UA").1 [("load1", [10, 20, 30])] rfl]
    norm_num [loadBus, netEnergy, dtHours, medianQ, diffsQ,
      List.insertionSort, List.orderedInsert, List.find?]
  · exact (total_energy_formula netNoSeries "UA").2.1 rfl

/-- C3: for every region, the total installed capacity is (sum of p_nom
over owned generators, NaN counted as 0, plus the same sum over owned
storage units) divided by 1000, and it is 0 when the region owns no such
assets. -/
theorem total_capacity_formula (n : Network) (b : String) :
    genCapGw n b
      = (((n.generators.filter (fun a => a.bus == b)).map
            (fun a => a.pNom.getD 0)).sum
         + ((n.storageUnits.filter (fun a => a.bus == b)).map
            (fun a => a.pNom.getD 0)).sum) / 1000
    ∧ (n.generators.filter (fun a => a.bus == b) = [] →
       n.storageUnits.filter (fun a => a.bus == b) = [] →
       genCapGw n b = 0) := by
  have hmain : genCapGw n b
      = (((n.generators.filter (fun a => a.bus == b)).map
            (fun a => a.pNom.getD 0)).sum
         + ((n.storageUnits.filter (fun a => a.bus == b)).map
            (fun a => a.pNom.getD 0)).sum) / 1000 := by
    rw [genCapGw, genCapMw, capSumMw, capSumMw]
    rcases hg : n.generators with - | ⟨g, gs⟩ <;>
      rcases hsu : n.storageUnits with - | ⟨s, ss⟩ <;>
        simp [List.isEmpty]
  refine ⟨hmain, fun hg hsu => ?_⟩
  rw [hmain, hg, hsu]
  norm_num

/-- C3 witness: generators 100 (wind), 200 (gas) and a NaN p_nom (counted
as zero, not excluded) plus storage 50 give (100+200+0+50)/1000 = 0.35 GW;
a region owning nothing gets 0. -/
theorem total_capacity_formula_witness :
    genCapGw netCapacity "UA" = 7 / 20
    ∧ genCapGw netCapacity "MD" = 0 := by
  constructor
  · rw [(total_capacity_formula netCapacity "UA").1]
    norm_num [netCapacity]
  · exact (total_capacity_formula netCapacity "MD").2 (by decide) (by decide)

/-- The empty-selection guard of the suppression step changes nothing:
`renderedLines` is always the filtered selection. -/
theorem renderedLines_eq_filter (n : Network) :
    renderedLines n = (selLines n).filter
      (fun l => !(linkPairs n).contains (pairOf l.bus0 l.bus1)) := by
  rw [renderedLines]
  cases h : (selLines n).isEmpty
  · rw [if_neg]
    simp [h]
  · rw [if_pos (by simp [h]), List.isEmpty_iff.mp h, List.filter_nil]

/-- Membership in the suppressed line list. -/
theorem mem_renderedLines {n : Network} {l : Line} :
    l ∈ renderedLines n ↔
      l ∈ selLines n ∧ pairOf l.bus0 l.bus1 ∉ linkPairs n := by
  rw [renderedLines_eq_filter, List.mem_filter]
  simp

/-- Membership in the selected line list. -/
theorem mem_selLines {n : Network} {l : Line} :
    l ∈ selLines n ↔
      l ∈ n.lines ∧ l.bus0 ∈ selectedBuses n ∧ l.bus1 ∈ selectedBuses n := by
  rw [selLines, List.mem_filter]
  simp

/-- Membership in the selected link list. -/
theorem mem_selLinks {n : Network} {k : Link} :
    k ∈ selLinks n ↔
      k ∈ n.links ∧ k.bus0 ∈ selectedBuses n ∧ k.bus1 ∈ selectedBuses n := by
  rw [selLinks, List.mem_filter]
  simp

/-- C1: for an unordered pair covered by a selected line and a selected
link, the rendered edge set has no class-A edge on that pair, and its
edges on that pair are exactly the class-B edges of the links covering
it — links are never suppressed by lines. -/
theorem edge_suppression_law (n : Network) (p : String × String)
    (hA : ∃ l ∈ selLines n, pairOf l.bus0 l.bus1 = p)
    (hB : ∃ k ∈ selLinks n, pairOf k.bus0 k.bus1 = p) :
    (renderedEdges n).filter
        (fun e => e.cls == EdgeClass.A && decide (e.pairKey = p)) = []
    ∧ (renderedEdges n).filter (fun e => decide (e.pairKey = p))
      = ((selLinks n).filter
          (fun k => decide (pairOf k.bus0 k.bus1 = p))).map mkLinkEdge := by
  obtain ⟨k0, hk0, hk0p⟩ := hB
  have hpmem : p ∈ linkPairs n := by
    rw [linkPairs]
    exact List.mem_map.mpr ⟨k0, hk0, hk0p⟩
  have hline : ∀ l ∈ renderedLines n, ¬ pairOf l.bus0 l.bus1 = p := by
    intro l hl hp
    exact (mem_renderedLines.mp hl).2 (hp ▸ hpmem)
  constructor
  · rw [renderedEdges, List.filter_append, List.filter_map, List.filter_map,
      List.filter_eq_nil_iff.mpr, List.filter_eq_nil_iff.mpr, List.map_nil,
      List.map_nil, List.append_nil]
    · intro k _
      simp [mkLinkEdge]
    · intro l hl
      simp [mkLineEdge, Edge.pairKey, hline l hl]
  · rw [renderedEdges, List.filter_append, List.filter_map, List.filter_map,
      List.filter_eq_nil_iff.mpr, List.map_nil, List.nil_append]
    · rfl
    · intro l hl
      simp [mkLineEdge, Edge.pairKey, hline l hl]

/-- C1 witness: in `netBothClasses` the pair ("MD", "UA") is covered by
line L1 and link K1; the rendered edges on the pair are exactly the one
class-B edge of K1 and no class-A edge survives. -/
theorem edge_suppression_law_witness :
    (renderedEdges netBothClasses).filter
        (fun e => e.cls == EdgeClass.A && decide (e.pairKey = ("MD", "UA"))) = []
    ∧ (renderedEdges netBothClasses).filter
        (fun e => decide (e.pairKey = ("MD", "UA")))
      = [mkLinkEdge ⟨"K1", "MD", "UA", some 300⟩] := by
  have h := edge_suppression_law netBothClasses ("MD", "UA")
    ⟨⟨"L1", "UA", "MD", some 500, none⟩,
      by simp +decide [selLines, netBothClasses, selectedBuses],
      by simp +decide [pairOf, String.le_iff_toList_le]⟩
    ⟨⟨"K1", "MD", "UA", some 300⟩,
      by simp +decide [selLinks, netBothClasses, selectedBuses],
      by simp +decide [pairOf, String.le_iff_toList_le]⟩
  refine ⟨h.1, ?_⟩
  rw [h.2]
  simp +decide [selLinks, netBothClasses, selectedBuses, pairOf,
    String.le_iff_toList_le]

/-- C6 counterexample: two links over the same unordered pair are both
rendered, so the pair ("MD", "UA") carries two edges in `netTwoLinks` —
the rendered edge set is not limited to one edge per pair. -/
theorem pair_multiplicity_counterexample :
    ((renderedEdges netTwoLinks).filter
      (fun e => decide (e.pairKey = ("MD", "UA")))).length = 2 := by
  simp +decide [renderedEdges, renderedLines, selLines, selLinks, netTwoLinks,
    linkPairs, mkLinkEdge, Edge.pairKey, pairOf, capMwFromLink, selectedBuses,
    String.le_iff_toList_le]

/-- C6 amended: for every unordered pair, all rendered edges on that pair
have the same class — a pair never carries both a class-A and a class-B
edge (several edges of one class may remain). -/
theorem one_class_per_pair (n : Network) (e1 e2 : Edge)
    (h1 : e1 ∈ renderedEdges n) (h2 : e2 ∈ renderedEdges n)
    (hp : e1.pairKey = e2.pairKey) : e1.cls = e2.cls := by
  rw [renderedEdges, List.mem_append] at h1 h2
  rcases h1 with h1 | h1 <;> rcases h2 with h2 | h2
  · obtain ⟨l1, -, rfl⟩ := List.mem_map.mp h1
    obtain ⟨l2, -, rfl⟩ := List.mem_map.mp h2
    rfl
  · obtain ⟨l1, hl1, rfl⟩ := List.mem_map.mp h1
    obtain ⟨k2, hk2, rfl⟩ := List.mem_map.mp h2
    have hpk : pairOf l1.bus0 l1.bus1 = pairOf k2.bus0 k2.bus1 := hp
    have hk2m : pairOf k2.bus0 k2.bus1 ∈ linkPairs n := by
      rw [linkPairs]
      exact List.mem_map.mpr ⟨k2, hk2, rfl⟩
    exact absurd (hpk ▸ hk2m) ((mem_renderedLines.mp hl1).2)
  · obtain ⟨k1, hk1, rfl⟩ := List.mem_map.mp h1
    obtain ⟨l2, hl2, rfl⟩ := List.mem_map.mp h2
    have hpk : pairOf k1.bus0 k1.bus1 = pairOf l2.bus0 l2.bus1 := hp
    have hk1m : pairOf k1.bus0 k1.bus1 ∈ linkPairs n := by
      rw [linkPairs]
      exact List.mem_map.mpr ⟨k1, hk1, rfl⟩
    exact absurd (hpk ▸ hk1m) ((mem_renderedLines.mp hl2).2)
  · obtain ⟨k1, -, rfl⟩ := List.mem_map.mp h1
    obtain ⟨k2, -, rfl⟩ := List.mem_map.mp h2
    rfl

/-- C6 witness: the two rendered edges of `netTwoLinks` share the pair
("MD", "UA") and indeed have the same class. -/
theorem one_class_per_pair_witness :
    (mkLinkEdge ⟨"K1", "UA", "MD", some 300⟩).cls
      = (mkLinkEdge ⟨"K2", "MD", "UA", some 400⟩).cls :=
  one_class_per_pair netTwoLinks _ _
    (by simp +decide [renderedEdges, renderedLines, selLines, selLinks,
      netTwoLinks, linkPairs, mkLinkEdge, selectedBuses, pairOf,
      String.le_iff_toList_le])
    (by simp +decide [renderedEdges, renderedLines, selLines, selLinks,
      netTwoLinks, linkPairs, mkLinkEdge, selectedBuses, pairOf,
      String.le_iff_toList_le])
    (by simp +decide [Edge.pairKey, mkLinkEdge, pairOf,
      String.le_iff_toList_le])

/-- C10: a line between two selected regions is suppressed only by links
whose endpoints are both selected; when every link over the same
unordered pair fails that condition, the class-A edge is rendered. -/
theorem suppression_requires_selected_link (n : Network) (l : Line)
    (hl : l ∈ n.lines) (h0 : l.bus0 ∈ selectedBuses n)
    (h1 : l.bus1 ∈ selectedBuses n)
    (hk : ∀ k ∈ n.links, pairOf k.bus0 k.bus1 = pairOf l.bus0 l.bus1 →
      ¬ (k.bus0 ∈ selectedBuses n ∧ k.bus1 ∈ selectedBuses n)) :
    mkLineEdge l ∈ renderedEdges n := by
  have hsel : l ∈ selLines n := mem_selLines.mpr ⟨hl, h0, h1⟩
  have hnp : pairOf l.bus0 l.bus1 ∉ linkPairs n := by
    intro hmem
    rw [linkPairs] at hmem
    obtain ⟨k, hkmem, hkp⟩ := List.mem_map.mp hmem
    have hm := mem_selLinks.mp hkmem
    exact hk k hm.1 hkp ⟨hm.2.1, hm.2.2⟩
  rw [renderedEdges, List.mem_append]
  exact Or.inl (List.mem_map.mpr ⟨l, mem_renderedLines.mpr ⟨hsel, hnp⟩, rfl⟩)

/-- C10 witness: in `netUnselLink` the link K1 touches the unselected
3-character bus "UAX" and covers a different pair, so line L1 between the
selected "UA" and "MD" is still rendered as a class-A edge. -/
theorem suppression_requires_selected_link_witness :
    mkLineEdge ⟨"L1", "UA", "MD", some 500, none⟩
      ∈ renderedEdges netUnselLink := by
  apply suppression_requires_selected_link netUnselLink
    ⟨"L1", "UA", "MD", some 500, none⟩ (by decide) (by decide) (by decide)
  intro k hkmem hp
  have hk1 : k = ⟨"K1", "UA", "UAX", some 100⟩ := by
    simpa [netUnselLink] using hkmem
  rw [hk1] at hp
  simp +decide [pairOf, String.le_iff_toList_le] at hp

instance : IsTrans (String × ℚ) pairLe where
  trans a b c hab hbc := by
    rcases hab with hab | ⟨hab, hab2⟩ <;> rcases hbc with hbc | ⟨hbc, hbc2⟩
    · exact Or.inl (lt_trans hab hbc)
    · exact Or.inl (hbc ▸ hab)
    · exact Or.inl (hab ▸ hbc)
    · exact Or.inr ⟨hab.trans hbc, le_trans hab2 hbc2⟩

instance : IsTotal (String × ℚ) pairLe where
  total a b := by
    rcases lt_trichotomy a.1 b.1 with h | h | h
    · exact Or.inl (Or.inl h)
    · rcases le_total a.2 b.2 with h2 | h2
      · exact Or.inl (Or.inr ⟨h, h2⟩)
      · exact Or.inr (Or.inr ⟨h.symm, h2⟩)
    · exact Or.inr (Or.inl h)

/-- C7 counterexample: with bus table order ["UA", "MD", "UAX"] the
rendered markers appear as ["UA", "MD"] — bus-table order, not sorted by
identifier, refuting the claimed regions-sorted-by-identifier ordering. -/
theorem marker_order_counterexample :
    ¬ List.Sorted (fun a b => a ≤ b)
      ((renderedMarkers netUnsorted).map Marker.id) := by
  have h : (renderedMarkers netUnsorted).map Marker.id = ["UA", "MD"] := by
    rw [renderedMarkers, List.map_map]
    simp +decide [selectedBuses, netUnsorted, markerFor]
  rw [h]
  simp +decide [List.Sorted, String.le_iff_toList_le]

/-- C7 amended: the rendered document is a deterministic (pure) function
of the input network — two runs on the same input agree — with the region
markers in bus-table order (not sorted by identifier) and the technology
entries of every marker popup sorted by label. -/
theorem render_deterministic_order (n : Network) :
    buildDoc n = buildDoc n
    ∧ (renderedMarkers n).map Marker.id = selectedBuses n
    ∧ (∀ m ∈ renderedMarkers n,
        m.genTypesGw.Sorted pairLe ∧ m.storTypesGw.Sorted pairLe) := by
  refine ⟨rfl, ?_, ?_⟩
  · rw [renderedMarkers, List.map_map]
    have h : (Marker.id ∘ markerFor n) = fun b => b := rfl
    rw [h]
    exact List.map_id _
  · intro m hm
    rw [renderedMarkers] at hm
    obtain ⟨b, -, rfl⟩ := List.mem_map.mp hm
    exact ⟨List.sorted_insertionSort pairLe _, List.sorted_insertionSort pairLe _⟩

/-- C7 witness: in `netUnsorted` the marker of "UA" has its generator
technologies sorted by label, and the marker identifiers equal the
selected-bus sequence. -/
theorem render_deterministic_order_witness :
    ((markerFor netUnsorted "UA").genTypesGw.Sorted pairLe
      ∧ (markerFor netUnsorted "UA").storTypesGw.Sorted pairLe)
    ∧ (renderedMarkers netUnsorted).map Marker.id = selectedBuses netUnsorted := by
  refine ⟨(render_deterministic_order netUnsorted).2.2 (markerFor netUnsorted "UA") ?_,
    (render_deterministic_order netUnsorted).2.1⟩
  rw [renderedMarkers]
  exact List.mem_map.mpr ⟨"UA", by decide, rfl⟩

end BuildMap
